import Mathlib

/- Shallow embedding of `src/train.py`: multi-precision quantization-aware
training with recursive self-distillation.  Tensor scalars are modelled over
ℚ; a flattened tensor is a `List ℚ`.  External collaborators that the
orchestration loop only calls (the model's forward passes, the loss
functions, softmax, the accuracy helper) are abstract function fields of the
`Cfg` and `Batch` records, so every theorem quantifies over their behaviour. -/

/-- Modelled from the spec: the running mean/count tracker (`AverageMeter`
from `utils`, a repository module that is not part of `src/`).  Per spec
section 4.1, `update v w` stores the latest raw value, adds `v*w` to the sum
and `w` to the count.  The extra `updates` field counts `update` calls so
that recording claims can be stated. -/
structure AverageMeter where
  val : ℚ
  sum : ℚ
  cnt : ℚ
  updates : Nat
deriving Repr, DecidableEq, Inhabited

def AverageMeter.init : AverageMeter := ⟨0, 0, 0, 0⟩

def AverageMeter.update (m : AverageMeter) (v w : ℚ) : AverageMeter :=
  ⟨v, m.sum + v * w, m.cnt + w, m.updates + 1⟩

def AverageMeter.avg (m : AverageMeter) : ℚ := m.sum / m.cnt

/-- `[AverageMeter() for _ in bit_width_list]` (train.py lines 160-162). -/
def initMeters (n : Nat) : List AverageMeter := List.replicate n AverageMeter.init

/-- `[[AverageMeter() for _ in range(model.get_num_layers()+1)] for b in
bit_width_list]` (train.py line 163). -/
def initSlack (n layers : Nat) : List (List AverageMeter) :=
  List.replicate n (List.replicate (layers + 1) AverageMeter.init)

/-- Python `ms[i].update(v, w)` as a functional update of the list. -/
def updateAt (v w : ℚ) : Nat → List AverageMeter → List AverageMeter
  | _, [] => []
  | 0, m :: ms => m.update v w :: ms
  | i + 1, m :: ms => m :: updateAt v w i ms

/-- Python `ms[-1].update(v, w)`: update the last meter of the list. -/
def updateLast (v w : ℚ) : List AverageMeter → List AverageMeter
  | [] => []
  | [m] => [m.update v w]
  | m :: m' :: ms => m :: updateLast v w (m' :: ms)

/-- `torch.mean(torch.square(x - y))` on flattened same-shape tensors. -/
def meanSq (xs ys : List ℚ) : ℚ :=
  let ds := (xs.zip ys).map fun p => (p.1 - p.2) * (p.1 - p.2)
  ds.sum / (ds.length : ℚ)

/-- Value of a decimal digit character, `none` otherwise. -/
def digitVal (c : Char) : Option Nat :=
  if '0' ≤ c ∧ c ≤ '9' then some (c.toNat - ('0').toNat) else none

/-- Accumulating decimal parser over a character list; fails on the first
non-digit character. -/
def parseNatAux : List Char → Nat → Option Nat
  | [], acc => some acc
  | c :: cs, acc =>
    match digitVal c with
    | some d => parseNatAux cs (acc * 10 + d)
    | none => none

/-- Python `int(token)` on a decimal token: optional sign followed by at
least one digit; `int('')` raises, modelled as `none`. -/
def pyInt (s : String) : Option Int :=
  match s.toList with
  | [] => none
  | '-' :: [] => none
  | '-' :: c :: cs => (parseNatAux (c :: cs) 0).map fun n => -(n : Int)
  | '+' :: [] => none
  | '+' :: c :: cs => (parseNatAux (c :: cs) 0).map fun n => (n : Int)
  | cs => (parseNatAux cs 0).map fun n => (n : Int)

/-- Helper for `str.split(',')`: accumulates the current token (reversed). -/
def splitCommaAux : List Char → List Char → List String
  | [], acc => [String.mk acc.reverse]
  | c :: cs, acc =>
    if c = ',' then String.mk acc.reverse :: splitCommaAux cs []
    else splitCommaAux cs (c :: acc)

/-- Python `s.split(',')`: always returns at least one token; the empty
string yields `[""]`. -/
def splitComma (s : String) : List String := splitCommaAux s.toList []

/-- `list(map(int, args.bit_width_list.split(',')))` (train.py line 62 and
again line 158 inside `forward`); any unparsable token aborts. -/
def parseBitWidths (s : String) : Option (List Int) :=
  (splitComma s).mapM pyInt

/-- The bit width list after the in-place ascending `sort()` (train.py lines
62-63 in `main` and 158-159 in `forward`).  Python `list.sort` only sorts:
duplicates are kept. -/
def sortedBitWidths (s : String) : Option (List Int) :=
  (parseBitWidths s).map (List.insertionSort (· ≤ ·))

/-- `bw_list` (train.py lines 64-68): the sorted list with 32 appended when
absent; it is used for constructing the model (extra 32-bit BN layers). -/
def bwListExtended (l : List Int) : List Int :=
  if 32 ∈ l then l else l ++ [32]

/-- The builder the spec claims: `sorted(dedup(P))` (claim C6's wording);
kept for comparison with `sortedBitWidths`, which never deduplicates. -/
def specTrainSchedule (l : List Int) : List Int :=
  List.insertionSort (· ≤ ·) l.dedup

/-- Static data of one `forward` call: the sorted bit width list (recomputed
from `args.bit_width_list` at train.py lines 158-159), the model's layer
count, and the abstract collaborators.  `epsilon` is modelled from the spec:
`forward` reads `epsilon[bw][l]` (line 188) but no definition of `epsilon`
is part of `src/`; the spec calls it the precomputed per-(precision, layer)
calibration threshold.  `softmax` is `torch.nn.functional.softmax`-with-
detach, `ceSoft` is `criterion_soft` (`CrossEntropyLossSoft` from
`models.losses`, also outside `src/`).  `evalConstraint` mirrors
`args.eval_constraint`. -/
structure Cfg where
  bwList : List Int
  numLayers : Nat
  epsilon : Int → Nat → ℚ
  softmax : List ℚ → List ℚ
  ceSoft : List ℚ → List ℚ → ℚ
  evalConstraint : Bool

/-- One input batch together with the (deterministic) behaviour of the model
and metric collaborators on it: `act bw` is `model.get_activations(input)`
with the precision selector set to `bw`, `out bw` is `model(input)`, `ce` is
`criterion(·, target)`, `p1`/`p5` the top-1/top-5 accuracies against
`target`, and `size` is `input.size(0)`. -/
structure Batch where
  act : Int → List (List ℚ)
  out : Int → List ℚ
  ce : List ℚ → ℚ
  p1 : List ℚ → ℚ
  p5 : List ℚ → ℚ
  size : ℚ

/-- The training branch reads the output off the activation trace:
`output = act_full[-1]` (line 211), `output = act_q[-1]` (line 224). -/
def Batch.outAt (b : Batch) (bw : Int) : List ℚ := (b.act bw).getLastD []

/-- The gradient-side calls the training branch issues, in program order. -/
inductive GradEvent
  | zeroGrad
  | backward (bw : Int)
  | optStep
deriving Repr, DecidableEq

/-- Number of `.backward()` calls recorded in a trace. -/
def countBackwards : List GradEvent → Nat
  | [] => 0
  | GradEvent.backward _ :: tr => countBackwards tr + 1
  | _ :: tr => countBackwards tr

/-- Number of `optimizer.step()` calls recorded in a trace. -/
def countOptSteps : List GradEvent → Nat
  | [] => 0
  | GradEvent.optStep :: tr => countOptSteps tr + 1
  | _ :: tr => countOptSteps tr

/-- Record of one iteration of the distillation loop (lines 220-232): which
level was trained, the soft-target distribution supervising it, and the
soft-loss value. -/
structure LevelRec where
  bw : Int
  target : List ℚ
  lossVal : ℚ
deriving Repr, DecidableEq, Inhabited

structure TrainOut where
  losses : List AverageMeter
  top1 : List AverageMeter
  top5 : List AverageMeter
  slack : List (List AverageMeter)
  recs : List LevelRec
  trace : List GradEvent

/-- Lines 220-232: `for bw, am_l, am_t1, am_t5, slm in zip(bit_width_list,
losses, top1, top5, slack_meter)` — soft loss of this level's output against
the running `target_soft`, backward, re-derive `target_soft` from this
level's own detached output, update the meters.  The zipped slack meters are
never used in the body; `zip` truncates at the shortest list. -/
def trainLoop (softmaxF : List ℚ → List ℚ) (ceSoftF : List ℚ → List ℚ → ℚ) (b : Batch) :
    List Int → List ℚ → List AverageMeter → List AverageMeter → List AverageMeter →
      List (List AverageMeter) → TrainOut
  | bw :: bws, tgt, l :: ls, a :: t1s, c :: t5s, sm :: sms =>
    let output := b.outAt bw
    let lossv := ceSoftF output tgt
    let rest := trainLoop softmaxF ceSoftF b bws (softmaxF output) ls t1s t5s sms
    ⟨l.update lossv b.size :: rest.losses,
     a.update (b.p1 output) b.size :: rest.top1,
     c.update (b.p5 output) b.size :: rest.top5,
     sm :: rest.slack,
     ⟨bw, tgt, lossv⟩ :: rest.recs,
     GradEvent.backward bw :: rest.trace⟩
  | _, _, ls, t1s, t5s, sms => ⟨ls, t1s, t5s, sms, [], []⟩

/-- Lines 203-233, one training batch: `optimizer.zero_grad()`; reference
pass at precision 32 with activation trace, hard loss, immediate backward,
meters updated at the last slot (`losses[-1]` etc.); `target_soft` from the
detached reference output; the distillation loop; a single
`optimizer.step()`. -/
def trainBatch (cfg : Cfg) (b : Batch) (losses top1 top5 : List AverageMeter)
    (slack : List (List AverageMeter)) : TrainOut :=
  let output := b.outAt 32
  let lossv := b.ce output
  let losses1 := updateLast lossv b.size losses
  let top1a := updateLast (b.p1 output) b.size top1
  let top5a := updateLast (b.p5 output) b.size top5
  let L := trainLoop cfg.softmax cfg.ceSoft b cfg.bwList (cfg.softmax output)
    losses1 top1a top5a slack
  ⟨L.losses, L.top1, L.top5, L.slack, L.recs,
   GradEvent.zeroGrad :: GradEvent.backward 32 :: (L.trace ++ [GradEvent.optStep])⟩

/-- Lines 185-189, the slack block of one evaluation level: `slm[-1]` (index
`numLayers`) records the soft loss of this level's output against the
reference soft target; each layer slot `l` records
`mean((act_q[l] - act_full[l])^2) - epsilon[bw][l]` (sign preserved, no
clamping). -/
def slackRow (numLayers : Nat) (epsilonF : Int → Nat → ℚ)
    (ceSoftF : List ℚ → List ℚ → ℚ) (b : Batch) (actFull : List (List ℚ))
    (tgt : List ℚ) (bw : Int) (sm : List AverageMeter) : List AverageMeter :=
  let output := b.out bw
  let actQ := b.act bw
  let sm1 := updateAt (ceSoftF output tgt) b.size numLayers sm
  (List.range numLayers).foldl
    (fun s lyr =>
      updateAt (meanSq (actQ.getD lyr []) (actFull.getD lyr []) - epsilonF bw lyr)
        b.size lyr s)
    sm1

structure EvalOut where
  losses : List AverageMeter
  top1 : List AverageMeter
  top5 : List AverageMeter
  slack : List (List AverageMeter)

/-- Lines 176-189: the main evaluation loop over `zip(bit_width_list,
losses, top1, top5, slack_meter)` — per level a fresh forward pass, hard
loss/top-1/top-5 updates, then the slack block. -/
def evalLoop (numLayers : Nat) (epsilonF : Int → Nat → ℚ)
    (ceSoftF : List ℚ → List ℚ → ℚ) (b : Batch) (actFull : List (List ℚ))
    (tgt : List ℚ) :
    List Int → List AverageMeter → List AverageMeter → List AverageMeter →
      List (List AverageMeter) → EvalOut
  | bw :: bws, l :: ls, a :: t1s, c :: t5s, sm :: sms =>
    let output := b.out bw
    let rest := evalLoop numLayers epsilonF ceSoftF b actFull tgt bws ls t1s t5s sms
    ⟨l.update (b.ce output) b.size :: rest.losses,
     a.update (b.p1 output) b.size :: rest.top1,
     c.update (b.p5 output) b.size :: rest.top5,
     slackRow numLayers epsilonF ceSoftF b actFull tgt bw sm :: rest.slack⟩
  | _, ls, t1s, t5s, sms => ⟨ls, t1s, t5s, sms⟩

/-- Lines 190-202: the `for ... else:` block.  The loop body contains no
`break`, so Python runs the `else` after every completed loop: it re-runs a
forward pass at every level and updates the same loss/top-1/top-5 meters a
second time (the transient `wbit = abit = 32` it sets first is overwritten
before any forward call; no slack meters are touched). -/
def evalLoopElse (b : Batch) :
    List Int → List AverageMeter → List AverageMeter → List AverageMeter → EvalOut
  | bw :: bws, l :: ls, a :: t1s, c :: t5s =>
    let output := b.out bw
    let rest := evalLoopElse b bws ls t1s t5s
    ⟨l.update (b.ce output) b.size :: rest.losses,
     a.update (b.p1 output) b.size :: rest.top1,
     c.update (b.p5 output) b.size :: rest.top5,
     []⟩
  | _, ls, t1s, t5s => ⟨ls, t1s, t5s, []⟩

/-- Lines 165-202, one evaluation batch under `torch.no_grad()`: set the
precision selector to `bit_width_list[-1]` (the highest level of the parsed
schedule, not necessarily 32), take the reference activation trace and
output there, derive the soft target, run the level loop, then the `else`
block.  No gradient-side call occurs anywhere in this branch. -/
def evalBatch (cfg : Cfg) (b : Batch) (losses top1 top5 : List AverageMeter)
    (slack : List (List AverageMeter)) : EvalOut :=
  let refBw := cfg.bwList.getLastD 0
  let actFull := b.act refBw
  let output := b.out refBw
  let tgt := cfg.softmax output
  let E := evalLoop cfg.numLayers cfg.epsilon cfg.ceSoft b actFull tgt cfg.bwList
    losses top1 top5 slack
  let F := evalLoopElse b cfg.bwList E.losses E.top1 E.top5
  ⟨F.losses, F.top1, F.top5, E.slack⟩

/-- One evaluation batch started from the freshly initialised meters of
lines 160-163. -/
def freshEval (cfg : Cfg) (b : Batch) : EvalOut :=
  evalBatch cfg b (initMeters cfg.bwList.length) (initMeters cfg.bwList.length)
    (initMeters cfg.bwList.length) (initSlack cfg.bwList.length cfg.numLayers)

/-- Running state of one `forward` call over a data loader. -/
structure ForwardState where
  losses : List AverageMeter
  top1 : List AverageMeter
  top5 : List AverageMeter
  slack : List (List AverageMeter)
  recs : List LevelRec
  trace : List GradEvent

/-- Meters as initialised at the top of `forward` (lines 160-163). -/
def forwardInit (cfg : Cfg) : ForwardState :=
  ⟨initMeters cfg.bwList.length, initMeters cfg.bwList.length,
   initMeters cfg.bwList.length, initSlack cfg.bwList.length cfg.numLayers, [], []⟩

/-- The per-batch body of `forward` (line 164): evaluation branch when
`training` is false, training branch otherwise. -/
def forwardBatch (cfg : Cfg) (training : Bool) (st : ForwardState) (b : Batch) :
    ForwardState :=
  if training then
    let T := trainBatch cfg b st.losses st.top1 st.top5 st.slack
    ⟨T.losses, T.top1, T.top5, T.slack, st.recs ++ T.recs, st.trace ++ T.trace⟩
  else
    let E := evalBatch cfg b st.losses st.top1 st.top5 st.slack
    ⟨E.losses, E.top1, E.top5, E.slack, st.recs, st.trace⟩

/-- One whole `forward` call: initialise the meters, then fold the per-batch
body over the loader's batches. -/
def forwardPass (cfg : Cfg) (training : Bool) (bs : List Batch) : ForwardState :=
  bs.foldl (forwardBatch cfg training) (forwardInit cfg)

/-- Parameters evolve only at `optimizer.step()`: `backward` accumulates
into gradient buffers and `zero_grad` clears them, neither touches the
parameters. -/
def applyGradEvents {P : Type} (stepF : P → P) : P → List GradEvent → P
  | p, [] => p
  | p, GradEvent.optStep :: tr => applyGradEvents stepF (stepF p) tr
  | p, GradEvent.zeroGrad :: tr => applyGradEvents stepF p tr
  | p, GradEvent.backward _ :: tr => applyGradEvents stepF p tr

/-- One checkpoint record as passed to `save_checkpoint` (lines 125-134):
the `is_best` flag and the running best validation top-1. -/
structure Ckpt where
  isBest : Bool
  bestPrec1 : ℚ
deriving Repr, DecidableEq, Inhabited

/-- Lines 119-134 iterated over the epochs: on the first epoch
`best_prec1` is `None`, so `is_best` is set and the best initialised;
afterwards `is_best = val_prec1[-1] > best_prec1` and
`best_prec1 = max(val_prec1[-1], best_prec1)`.  `save_checkpoint` is called
unconditionally, hence one record per epoch. -/
def epochLoop : Option ℚ → List ℚ → List Ckpt
  | _, [] => []
  | none, v :: vs => ⟨true, v⟩ :: epochLoop (some v) vs
  | some bp, v :: vs =>
    ⟨decide (bp < v), max v bp⟩ :: epochLoop (some (max v bp)) vs

/-- Startup failures of `main` before the epoch loop. -/
inductive StartupError
  | configurationError
deriving Repr, DecidableEq

/-- Lines 62-68 of `main`: parse and sort the requested bit widths, extend
with 32 for model construction.  A malformed or empty schedule string makes
`int` raise at line 62, before any training. -/
def mainStartup (s : String) : Except StartupError (List Int × List Int) :=
  match sortedBitWidths s with
  | none => Except.error StartupError.configurationError
  | some l => Except.ok (l, bwListExtended l)

/-- `main` reduced to what the claims need: schedule construction first;
only on success does the epoch loop run and produce checkpoint records. -/
def mainRun (s : String) (valPrec1 : List ℚ) : Except StartupError (List Ckpt) :=
  match mainStartup s with
  | Except.error e => Except.error e
  | Except.ok _ => Except.ok (epochLoop none valPrec1)

/-- Concrete stand-in for the softmax collaborator in counterexamples:
normalise a nonnegative vector by its sum (an injective-enough surrogate of
a probability projection). -/
def exSoftmax (v : List ℚ) : List ℚ :=
  if v.sum = 0 then v else v.map fun x => x / v.sum

/-- Concrete stand-in for the soft cross-entropy collaborator. -/
def exCeSoft (o t : List ℚ) : ℚ := ((o.zip t).map fun p => p.1 * p.2).sum

/-- Concrete configuration: requested schedule `4,8` (32 absent), one layer,
constant calibration threshold 1/10, slack toggle off. -/
def exCfg : Cfg := ⟨[4, 8], 1, fun _ _ => 1/10, exSoftmax, exCeSoft, false⟩

/-- Concrete activation traces (layer 0 and output) for the three precision
levels of interest; chosen so that levels 4, 8 and 32 all differ. -/
def exAct (bw : Int) : List (List ℚ) :=
  if bw = 4 then [[0, 0], [1, 1]]
  else if bw = 8 then [[1, 0], [1, 3]]
  else [[2, 2], [3, 1]]

/-- Concrete batch of size 2 built from `exAct`. -/
def exBatch : Batch :=
  ⟨exAct, fun bw => (exAct bw).getLastD [], fun o => o.sum,
   fun o => o.headD 0, fun o => o.headD 0, 2⟩

theorem updateAt_length (v w : ℚ) : ∀ (i : Nat) (s : List AverageMeter),
    (updateAt v w i s).length = s.length
  | _, [] => by simp [updateAt]
  | 0, _ :: _ => by simp [updateAt]
  | i + 1, m :: ms => by simp [updateAt, updateAt_length v w i ms]

theorem updateAt_getD_ne (v w : ℚ) (d : AverageMeter) :
    ∀ (i j : Nat) (s : List AverageMeter), i ≠ j →
      (updateAt v w i s).getD j d = s.getD j d := by
  intro i j s
  induction s generalizing i j with
  | nil => intro _; simp [updateAt]
  | cons m ms ih =>
    intro hij
    cases i with
    | zero =>
      cases j with
      | zero => exact absurd rfl hij
      | succ j' => simp [updateAt]
    | succ i' =>
      cases j with
      | zero => simp [updateAt]
      | succ j' =>
        simp only [updateAt, List.getD_cons_succ]
        exact ih i' j' (fun h => hij (by omega))

theorem updateAt_getD_eq (v w : ℚ) (d : AverageMeter) :
    ∀ (j : Nat) (s : List AverageMeter), j < s.length →
      (updateAt v w j s).getD j d = (s.getD j d).update v w := by
  intro j s
  induction s generalizing j with
  | nil => intro h; simp at h
  | cons m ms ih =>
    intro hj
    cases j with
    | zero => simp [updateAt]
    | succ j' =>
      simp only [updateAt, List.getD_cons_succ]
      exact ih j' (by simpa using hj)

theorem updateLast_length (v w : ℚ) : ∀ (s : List AverageMeter),
    (updateLast v w s).length = s.length
  | [] => rfl
  | [_] => rfl
  | _ :: m' :: ms => by
    simp [updateLast, updateLast_length v w (m' :: ms)]

theorem getD_replicate {α : Type} (a d : α) :
    ∀ (n j : Nat), j < n → (List.replicate n a).getD j d = a := by
  intro n
  induction n with
  | zero => intro j h; omega
  | succ n ih =>
    intro j hj
    cases j with
    | zero => simp [List.replicate]
    | succ j' => simpa [List.replicate] using ih j' (by omega)

theorem foldIdx_length (f : Nat → ℚ) (w : ℚ) :
    ∀ (is : List Nat) (s : List AverageMeter),
      (is.foldl (fun t i => updateAt (f i) w i t) s).length = s.length := by
  intro is
  induction is with
  | nil => intro s; rfl
  | cons i is ih => intro s; simp [List.foldl_cons, ih, updateAt_length]

theorem foldIdx_getD_notMem (f : Nat → ℚ) (w : ℚ) (d : AverageMeter) :
    ∀ (is : List Nat) (j : Nat) (s : List AverageMeter), j ∉ is →
      (is.foldl (fun t i => updateAt (f i) w i t) s).getD j d = s.getD j d := by
  intro is
  induction is with
  | nil => intro j s _; rfl
  | cons i is ih =>
    intro j s hj
    simp only [List.mem_cons, not_or] at hj
    simp only [List.foldl_cons]
    rw [ih j _ hj.2, updateAt_getD_ne _ _ _ _ _ _ (fun h => hj.1 h.symm)]

theorem foldRange_getD (f : Nat → ℚ) (w : ℚ) (d : AverageMeter) :
    ∀ (n lyr : Nat) (s : List AverageMeter), lyr < n → n ≤ s.length →
      ((List.range n).foldl (fun t i => updateAt (f i) w i t) s).getD lyr d
        = (s.getD lyr d).update (f lyr) w := by
  intro n
  induction n with
  | zero => intro lyr s h _; omega
  | succ n ih =>
    intro lyr s hlyr hs
    rw [List.range_succ, List.foldl_append, List.foldl_cons, List.foldl_nil]
    rcases Nat.lt_or_ge lyr n with h | h
    · rw [updateAt_getD_ne _ _ _ _ _ _ (by omega)]
      exact ih lyr s h (by omega)
    · have hln : lyr = n := by omega
      subst hln
      rw [updateAt_getD_eq _ _ _ _ _ (by rw [foldIdx_length]; omega),
        foldIdx_getD_notMem _ _ _ _ _ _ (by simp)]

theorem slackRow_length (nL : Nat) (eps : Int → Nat → ℚ) (cs : List ℚ → List ℚ → ℚ)
    (b : Batch) (aF : List (List ℚ)) (tgt : List ℚ) (bw : Int)
    (sm : List AverageMeter) :
    (slackRow nL eps cs b aF tgt bw sm).length = sm.length := by
  unfold slackRow
  rw [foldIdx_length, updateAt_length]

theorem slackRow_getD_layer (nL : Nat) (eps : Int → Nat → ℚ) (cs : List ℚ → List ℚ → ℚ)
    (b : Batch) (aF : List (List ℚ)) (tgt : List ℚ) (bw : Int)
    (sm : List AverageMeter) (d : AverageMeter) (lyr : Nat)
    (hl : lyr < nL) (hsm : nL < sm.length) :
    (slackRow nL eps cs b aF tgt bw sm).getD lyr d
      = (sm.getD lyr d).update
          (meanSq ((b.act bw).getD lyr []) (aF.getD lyr []) - eps bw lyr) b.size := by
  unfold slackRow
  rw [foldRange_getD _ _ _ _ _ _ hl (by rw [updateAt_length]; omega),
    updateAt_getD_ne _ _ _ _ _ _ (by omega)]

theorem slackRow_getD_out (nL : Nat) (eps : Int → Nat → ℚ) (cs : List ℚ → List ℚ → ℚ)
    (b : Batch) (aF : List (List ℚ)) (tgt : List ℚ) (bw : Int)
    (sm : List AverageMeter) (d : AverageMeter) (hsm : nL < sm.length) :
    (slackRow nL eps cs b aF tgt bw sm).getD nL d
      = (sm.getD nL d).update (cs (b.out bw) tgt) b.size := by
  unfold slackRow
  rw [foldIdx_getD_notMem _ _ _ _ _ _ (by simp), updateAt_getD_eq _ _ _ _ _ hsm]

theorem evalLoop_nil (nL : Nat) (eps : Int → Nat → ℚ) (cs : List ℚ → List ℚ → ℚ)
    (b : Batch) (aF : List (List ℚ)) (tgt : List ℚ)
    (ls t1s t5s : List AverageMeter) (sms : List (List AverageMeter)) :
    evalLoop nL eps cs b aF tgt [] ls t1s t5s sms = ⟨ls, t1s, t5s, sms⟩ := rfl

theorem evalLoop_cons (nL : Nat) (eps : Int → Nat → ℚ) (cs : List ℚ → List ℚ → ℚ)
    (b : Batch) (aF : List (List ℚ)) (tgt : List ℚ) (bw : Int) (bws : List Int)
    (l a c : AverageMeter) (ls t1s t5s : List AverageMeter)
    (sm : List AverageMeter) (sms : List (List AverageMeter)) :
    evalLoop nL eps cs b aF tgt (bw :: bws) (l :: ls) (a :: t1s) (c :: t5s) (sm :: sms)
      = ⟨l.update (b.ce (b.out bw)) b.size
            :: (evalLoop nL eps cs b aF tgt bws ls t1s t5s sms).losses,
         a.update (b.p1 (b.out bw)) b.size
            :: (evalLoop nL eps cs b aF tgt bws ls t1s t5s sms).top1,
         c.update (b.p5 (b.out bw)) b.size
            :: (evalLoop nL eps cs b aF tgt bws ls t1s t5s sms).top5,
         slackRow nL eps cs b aF tgt bw sm
            :: (evalLoop nL eps cs b aF tgt bws ls t1s t5s sms).slack⟩ := rfl

theorem evalLoop_lengths (nL : Nat) (eps : Int → Nat → ℚ) (cs : List ℚ → List ℚ → ℚ)
    (b : Batch) (aF : List (List ℚ)) (tgt : List ℚ) :
    ∀ (bws : List Int) (ls t1s t5s : List AverageMeter)
      (sms : List (List AverageMeter)),
      bws.length ≤ ls.length → bws.length ≤ t1s.length → bws.length ≤ t5s.length →
      bws.length ≤ sms.length →
      (evalLoop nL eps cs b aF tgt bws ls t1s t5s sms).losses.length = ls.length
      ∧ (evalLoop nL eps cs b aF tgt bws ls t1s t5s sms).top1.length = t1s.length
      ∧ (evalLoop nL eps cs b aF tgt bws ls t1s t5s sms).top5.length = t5s.length
      ∧ (evalLoop nL eps cs b aF tgt bws ls t1s t5s sms).slack.length = sms.length := by
  intro bws
  induction bws with
  | nil => intro ls t1s t5s sms _ _ _ _; simp [evalLoop_nil]
  | cons bw bws ih =>
    intro ls t1s t5s sms h1 h2 h3 h4
    cases ls with
    | nil => simp at h1
    | cons l ls =>
      cases t1s with
      | nil => simp at h2
      | cons a t1s =>
        cases t5s with
        | nil => simp at h3
        | cons c t5s =>
          cases sms with
          | nil => simp at h4
          | cons sm sms =>
            have := ih ls t1s t5s sms (by simpa using h1) (by simpa using h2)
              (by simpa using h3) (by simpa using h4)
            simp [evalLoop_cons, this.1, this.2.1, this.2.2.1, this.2.2.2]

theorem evalLoop_getD (nL : Nat) (eps : Int → Nat → ℚ) (cs : List ℚ → List ℚ → ℚ)
    (b : Batch) (aF : List (List ℚ)) (tgt : List ℚ) (d : AverageMeter)
    (dr : List AverageMeter) :
    ∀ (bws : List Int) (ls t1s t5s : List AverageMeter)
      (sms : List (List AverageMeter)) (j : Nat),
      j < bws.length → bws.length ≤ ls.length → bws.length ≤ t1s.length →
      bws.length ≤ t5s.length → bws.length ≤ sms.length →
      (evalLoop nL eps cs b aF tgt bws ls t1s t5s sms).losses.getD j d
          = (ls.getD j d).update (b.ce (b.out (bws.getD j 0))) b.size
      ∧ (evalLoop nL eps cs b aF tgt bws ls t1s t5s sms).top1.getD j d
          = (t1s.getD j d).update (b.p1 (b.out (bws.getD j 0))) b.size
      ∧ (evalLoop nL eps cs b aF tgt bws ls t1s t5s sms).top5.getD j d
          = (t5s.getD j d).update (b.p5 (b.out (bws.getD j 0))) b.size
      ∧ (evalLoop nL eps cs b aF tgt bws ls t1s t5s sms).slack.getD j dr
          = slackRow nL eps cs b aF tgt (bws.getD j 0) (sms.getD j dr) := by
  intro bws
  induction bws with
  | nil => intro ls t1s t5s sms j hj; simp at hj
  | cons bw bws ih =>
    intro ls t1s t5s sms j hj h1 h2 h3 h4
    cases ls with
    | nil => simp at h1
    | cons l ls =>
      cases t1s with
      | nil => simp at h2
      | cons a t1s =>
        cases t5s with
        | nil => simp at h3
        | cons c t5s =>
          cases sms with
          | nil => simp at h4
          | cons sm sms =>
            cases j with
            | zero => simp [evalLoop_cons]
            | succ j' =>
              have := ih ls t1s t5s sms j' (by simpa using hj) (by simpa using h1)
                (by simpa using h2) (by simpa using h3) (by simpa using h4)
              simp only [evalLoop_cons, List.getD_cons_succ]
              exact this

theorem evalLoopElse_nil (b : Batch) (ls t1s t5s : List AverageMeter) :
    evalLoopElse b [] ls t1s t5s = ⟨ls, t1s, t5s, []⟩ := rfl

theorem evalLoopElse_cons (b : Batch) (bw : Int) (bws : List Int)
    (l a c : AverageMeter) (ls t1s t5s : List AverageMeter) :
    evalLoopElse b (bw :: bws) (l :: ls) (a :: t1s) (c :: t5s)
      = ⟨l.update (b.ce (b.out bw)) b.size :: (evalLoopElse b bws ls t1s t5s).losses,
         a.update (b.p1 (b.out bw)) b.size :: (evalLoopElse b bws ls t1s t5s).top1,
         c.update (b.p5 (b.out bw)) b.size :: (evalLoopElse b bws ls t1s t5s).top5,
         []⟩ := rfl

theorem evalLoopElse_getD (b : Batch) (d : AverageMeter) :
    ∀ (bws : List Int) (ls t1s t5s : List AverageMeter) (j : Nat),
      j < bws.length → bws.length ≤ ls.length → bws.length ≤ t1s.length →
      bws.length ≤ t5s.length →
      (evalLoopElse b bws ls t1s t5s).losses.getD j d
          = (ls.getD j d).update (b.ce (b.out (bws.getD j 0))) b.size
      ∧ (evalLoopElse b bws ls t1s t5s).top1.getD j d
          = (t1s.getD j d).update (b.p1 (b.out (bws.getD j 0))) b.size
      ∧ (evalLoopElse b bws ls t1s t5s).top5.getD j d
          = (t5s.getD j d).update (b.p5 (b.out (bws.getD j 0))) b.size := by
  intro bws
  induction bws with
  | nil => intro ls t1s t5s j hj; simp at hj
  | cons bw bws ih =>
    intro ls t1s t5s j hj h1 h2 h3
    cases ls with
    | nil => simp at h1
    | cons l ls =>
      cases t1s with
      | nil => simp at h2
      | cons a t1s =>
        cases t5s with
        | nil => simp at h3
        | cons c t5s =>
          cases j with
          | zero => simp [evalLoopElse_cons]
          | succ j' =>
            have := ih ls t1s t5s j' (by simpa using hj) (by simpa using h1)
              (by simpa using h2) (by simpa using h3)
            simp only [evalLoopElse_cons, List.getD_cons_succ]
            exact this

theorem evalBatch_getD (cfg : Cfg) (b : Batch) (ls t1s t5s : List AverageMeter)
    (sms : List (List AverageMeter)) (d : AverageMeter) (dr : List AverageMeter)
    (j : Nat) (hj : j < cfg.bwList.length) (h1 : cfg.bwList.length ≤ ls.length)
    (h2 : cfg.bwList.length ≤ t1s.length) (h3 : cfg.bwList.length ≤ t5s.length)
    (h4 : cfg.bwList.length ≤ sms.length) :
    (evalBatch cfg b ls t1s t5s sms).losses.getD j d
        = ((ls.getD j d).update (b.ce (b.out (cfg.bwList.getD j 0))) b.size).update
            (b.ce (b.out (cfg.bwList.getD j 0))) b.size
    ∧ (evalBatch cfg b ls t1s t5s sms).top1.getD j d
        = ((t1s.getD j d).update (b.p1 (b.out (cfg.bwList.getD j 0))) b.size).update
            (b.p1 (b.out (cfg.bwList.getD j 0))) b.size
    ∧ (evalBatch cfg b ls t1s t5s sms).top5.getD j d
        = ((t5s.getD j d).update (b.p5 (b.out (cfg.bwList.getD j 0))) b.size).update
            (b.p5 (b.out (cfg.bwList.getD j 0))) b.size
    ∧ (evalBatch cfg b ls t1s t5s sms).slack.getD j dr
        = slackRow cfg.numLayers cfg.epsilon cfg.ceSoft b
            (b.act (cfg.bwList.getLastD 0))
            (cfg.softmax (b.out (cfg.bwList.getLastD 0)))
            (cfg.bwList.getD j 0) (sms.getD j dr) := by
  have hE := evalLoop_getD cfg.numLayers cfg.epsilon cfg.ceSoft b
    (b.act (cfg.bwList.getLastD 0)) (cfg.softmax (b.out (cfg.bwList.getLastD 0)))
    d dr cfg.bwList ls t1s t5s sms j hj h1 h2 h3 h4
  have hL := evalLoop_lengths cfg.numLayers cfg.epsilon cfg.ceSoft b
    (b.act (cfg.bwList.getLastD 0)) (cfg.softmax (b.out (cfg.bwList.getLastD 0)))
    cfg.bwList ls t1s t5s sms h1 h2 h3 h4
  have hF := evalLoopElse_getD b d cfg.bwList
    (evalLoop cfg.numLayers cfg.epsilon cfg.ceSoft b (b.act (cfg.bwList.getLastD 0))
      (cfg.softmax (b.out (cfg.bwList.getLastD 0))) cfg.bwList ls t1s t5s sms).losses
    (evalLoop cfg.numLayers cfg.epsilon cfg.ceSoft b (b.act (cfg.bwList.getLastD 0))
      (cfg.softmax (b.out (cfg.bwList.getLastD 0))) cfg.bwList ls t1s t5s sms).top1
    (evalLoop cfg.numLayers cfg.epsilon cfg.ceSoft b (b.act (cfg.bwList.getLastD 0))
      (cfg.softmax (b.out (cfg.bwList.getLastD 0))) cfg.bwList ls t1s t5s sms).top5
    j hj (by rw [hL.1]; exact h1) (by rw [hL.2.1]; exact h2) (by rw [hL.2.2.1]; exact h3)
  refine ⟨?_, ?_, ?_, ?_⟩
  · show (evalBatch cfg b ls t1s t5s sms).losses.getD j d = _
    unfold evalBatch
    rw [hF.1, hE.1]
  · unfold evalBatch
    rw [hF.2.1, hE.2.1]
  · unfold evalBatch
    rw [hF.2.2, hE.2.2.1]
  · unfold evalBatch
    exact hE.2.2.2

theorem freshEval_getD (cfg : Cfg) (b : Batch) (j : Nat)
    (hj : j < cfg.bwList.length) :
    (freshEval cfg b).losses.getD j default
        = (AverageMeter.init.update (b.ce (b.out (cfg.bwList.getD j 0))) b.size).update
            (b.ce (b.out (cfg.bwList.getD j 0))) b.size
    ∧ (freshEval cfg b).top1.getD j default
        = (AverageMeter.init.update (b.p1 (b.out (cfg.bwList.getD j 0))) b.size).update
            (b.p1 (b.out (cfg.bwList.getD j 0))) b.size
    ∧ (freshEval cfg b).top5.getD j default
        = (AverageMeter.init.update (b.p5 (b.out (cfg.bwList.getD j 0))) b.size).update
            (b.p5 (b.out (cfg.bwList.getD j 0))) b.size
    ∧ (freshEval cfg b).slack.getD j []
        = slackRow cfg.numLayers cfg.epsilon cfg.ceSoft b
            (b.act (cfg.bwList.getLastD 0))
            (cfg.softmax (b.out (cfg.bwList.getLastD 0)))
            (cfg.bwList.getD j 0)
            (List.replicate (cfg.numLayers + 1) AverageMeter.init) := by
  have h := evalBatch_getD cfg b (initMeters cfg.bwList.length)
    (initMeters cfg.bwList.length) (initMeters cfg.bwList.length)
    (initSlack cfg.bwList.length cfg.numLayers) default [] j hj
    (by simp [initMeters]) (by simp [initMeters]) (by simp [initMeters])
    (by simp [initSlack])
  have hm : (initMeters cfg.bwList.length).getD j default = AverageMeter.init :=
    getD_replicate _ _ _ _ hj
  have hs : (initSlack cfg.bwList.length cfg.numLayers).getD j []
      = List.replicate (cfg.numLayers + 1) AverageMeter.init :=
    getD_replicate _ _ _ _ hj
  unfold freshEval
  rw [hm, hs] at h
  exact h

theorem freshEval_slack (cfg : Cfg) (b : Batch) (j lyr : Nat)
    (hj : j < cfg.bwList.length) (hl : lyr < cfg.numLayers) :
    (((freshEval cfg b).slack.getD j []).getD lyr default).val
        = meanSq ((b.act (cfg.bwList.getD j 0)).getD lyr [])
            ((b.act (cfg.bwList.getLastD 0)).getD lyr [])
          - cfg.epsilon (cfg.bwList.getD j 0) lyr
    ∧ (((freshEval cfg b).slack.getD j []).getD lyr default).updates = 1
    ∧ (((freshEval cfg b).slack.getD j []).getD cfg.numLayers default).updates = 1
    ∧ (((freshEval cfg b).slack.getD j []).getD cfg.numLayers default).val
        = cfg.ceSoft (b.out (cfg.bwList.getD j 0))
            (cfg.softmax (b.out (cfg.bwList.getLastD 0))) := by
  rw [(freshEval_getD cfg b j hj).2.2.2]
  have hrep : ∀ i : Nat, i < cfg.numLayers + 1 →
      (List.replicate (cfg.numLayers + 1) AverageMeter.init).getD i default
        = AverageMeter.init := fun i hi => getD_replicate _ _ _ _ hi
  rw [slackRow_getD_layer _ _ _ _ _ _ _ _ _ _ hl (by simp),
    slackRow_getD_out _ _ _ _ _ _ _ _ _ (by simp),
    hrep lyr (by omega), hrep cfg.numLayers (by omega)]
  simp [AverageMeter.update, AverageMeter.init]

theorem trainLoop_nil (smF : List ℚ → List ℚ) (csF : List ℚ → List ℚ → ℚ)
    (b : Batch) (tgt : List ℚ) (ls t1s t5s : List AverageMeter)
    (sms : List (List AverageMeter)) :
    trainLoop smF csF b [] tgt ls t1s t5s sms = ⟨ls, t1s, t5s, sms, [], []⟩ := rfl

theorem trainLoop_cons (smF : List ℚ → List ℚ) (csF : List ℚ → List ℚ → ℚ)
    (b : Batch) (bw : Int) (bws : List Int) (tgt : List ℚ)
    (l a c : AverageMeter) (ls t1s t5s : List AverageMeter)
    (sm : List AverageMeter) (sms : List (List AverageMeter)) :
    trainLoop smF csF b (bw :: bws) tgt (l :: ls) (a :: t1s) (c :: t5s) (sm :: sms)
      = ⟨l.update (csF (b.outAt bw) tgt) b.size
            :: (trainLoop smF csF b bws (smF (b.outAt bw)) ls t1s t5s sms).losses,
         a.update (b.p1 (b.outAt bw)) b.size
            :: (trainLoop smF csF b bws (smF (b.outAt bw)) ls t1s t5s sms).top1,
         c.update (b.p5 (b.outAt bw)) b.size
            :: (trainLoop smF csF b bws (smF (b.outAt bw)) ls t1s t5s sms).top5,
         sm :: (trainLoop smF csF b bws (smF (b.outAt bw)) ls t1s t5s sms).slack,
         (⟨bw, tgt, csF (b.outAt bw) tgt⟩ : LevelRec)
            :: (trainLoop smF csF b bws (smF (b.outAt bw)) ls t1s t5s sms).recs,
         GradEvent.backward bw
            :: (trainLoop smF csF b bws (smF (b.outAt bw)) ls t1s t5s sms).trace⟩ := rfl

theorem trainLoop_trace (smF : List ℚ → List ℚ) (csF : List ℚ → List ℚ → ℚ)
    (b : Batch) :
    ∀ (bws : List Int) (tgt : List ℚ) (ls t1s t5s : List AverageMeter)
      (sms : List (List AverageMeter)),
      bws.length ≤ ls.length → bws.length ≤ t1s.length → bws.length ≤ t5s.length →
      bws.length ≤ sms.length →
      (trainLoop smF csF b bws tgt ls t1s t5s sms).trace
        = bws.map GradEvent.backward := by
  intro bws
  induction bws with
  | nil => intro tgt ls t1s t5s sms _ _ _ _; simp [trainLoop_nil]
  | cons bw bws ih =>
    intro tgt ls t1s t5s sms h1 h2 h3 h4
    cases ls with
    | nil => simp at h1
    | cons l ls =>
      cases t1s with
      | nil => simp at h2
      | cons a t1s =>
        cases t5s with
        | nil => simp at h3
        | cons c t5s =>
          cases sms with
          | nil => simp at h4
          | cons sm sms =>
            simp [trainLoop_cons, ih (smF (b.outAt bw)) ls t1s t5s sms
              (by simpa using h1) (by simpa using h2) (by simpa using h3)
              (by simpa using h4)]

theorem trainLoop_recs_zero (smF : List ℚ → List ℚ) (csF : List ℚ → List ℚ → ℚ)
    (b : Batch) (d : LevelRec) (bws : List Int) (tgt : List ℚ)
    (ls t1s t5s : List AverageMeter) (sms : List (List AverageMeter))
    (hj : 0 < bws.length) (h1 : bws.length ≤ ls.length)
    (h2 : bws.length ≤ t1s.length) (h3 : bws.length ≤ t5s.length)
    (h4 : bws.length ≤ sms.length) :
    (trainLoop smF csF b bws tgt ls t1s t5s sms).recs.getD 0 d
      = ⟨bws.getD 0 0, tgt, csF (b.outAt (bws.getD 0 0)) tgt⟩ := by
  cases bws with
  | nil => simp at hj
  | cons bw bws =>
    cases ls with
    | nil => simp at h1
    | cons l ls =>
      cases t1s with
      | nil => simp at h2
      | cons a t1s =>
        cases t5s with
        | nil => simp at h3
        | cons c t5s =>
          cases sms with
          | nil => simp at h4
          | cons sm sms => simp [trainLoop_cons]

theorem trainLoop_recs_succ (smF : List ℚ → List ℚ) (csF : List ℚ → List ℚ → ℚ)
    (b : Batch) (d : LevelRec) :
    ∀ (bws : List Int) (tgt : List ℚ) (ls t1s t5s : List AverageMeter)
      (sms : List (List AverageMeter)) (j : Nat),
      j + 1 < bws.length → bws.length ≤ ls.length → bws.length ≤ t1s.length →
      bws.length ≤ t5s.length → bws.length ≤ sms.length →
      (trainLoop smF csF b bws tgt ls t1s t5s sms).recs.getD (j + 1) d
        = ⟨bws.getD (j + 1) 0, smF (b.outAt (bws.getD j 0)),
           csF (b.outAt (bws.getD (j + 1) 0)) (smF (b.outAt (bws.getD j 0)))⟩ := by
  intro bws
  induction bws with
  | nil => intro tgt ls t1s t5s sms j hj; simp at hj
  | cons bw bws ih =>
    intro tgt ls t1s t5s sms j hj h1 h2 h3 h4
    cases ls with
    | nil => simp at h1
    | cons l ls =>
      cases t1s with
      | nil => simp at h2
      | cons a t1s =>
        cases t5s with
        | nil => simp at h3
        | cons c t5s =>
          cases sms with
          | nil => simp at h4
          | cons sm sms =>
            cases j with
            | zero =>
              simp only [trainLoop_cons, List.getD_cons_succ, List.getD_cons_zero]
              exact trainLoop_recs_zero smF csF b d bws (smF (b.outAt bw)) ls t1s t5s
                sms (by simpa using hj) (by simpa using h1) (by simpa using h2)
                (by simpa using h3) (by simpa using h4)
            | succ j' =>
              simp only [trainLoop_cons, List.getD_cons_succ]
              exact ih (smF (b.outAt bw)) ls t1s t5s sms j' (by simpa using hj)
                (by simpa using h1) (by simpa using h2) (by simpa using h3)
                (by simpa using h4)

theorem trainBatch_trace (cfg : Cfg) (b : Batch)
    (losses top1 top5 : List AverageMeter) (slack : List (List AverageMeter))
    (h1 : cfg.bwList.length ≤ losses.length) (h2 : cfg.bwList.length ≤ top1.length)
    (h3 : cfg.bwList.length ≤ top5.length) (h4 : cfg.bwList.length ≤ slack.length) :
    (trainBatch cfg b losses top1 top5 slack).trace
      = GradEvent.zeroGrad :: GradEvent.backward 32
          :: (cfg.bwList.map GradEvent.backward ++ [GradEvent.optStep]) := by
  simp only [trainBatch]
  rw [trainLoop_trace cfg.softmax cfg.ceSoft b cfg.bwList _ _ _ _ _
    (by rw [updateLast_length]; exact h1) (by rw [updateLast_length]; exact h2)
    (by rw [updateLast_length]; exact h3) h4]

theorem countOptSteps_append (t1 t2 : List GradEvent) :
    countOptSteps (t1 ++ t2) = countOptSteps t1 + countOptSteps t2 := by
  induction t1 with
  | nil => simp [countOptSteps]
  | cons e tr ih => cases e <;> simp [countOptSteps, ih, Nat.add_assoc, Nat.add_comm]

theorem countBackwards_append (t1 t2 : List GradEvent) :
    countBackwards (t1 ++ t2) = countBackwards t1 + countBackwards t2 := by
  induction t1 with
  | nil => simp [countBackwards]
  | cons e tr ih => cases e <;> simp [countBackwards, ih, Nat.add_assoc, Nat.add_comm]

theorem countOptSteps_map_backward (bws : List Int) :
    countOptSteps (bws.map GradEvent.backward) = 0 := by
  induction bws with
  | nil => rfl
  | cons bw bws ih => simp [countOptSteps, ih]

theorem countBackwards_map_backward (bws : List Int) :
    countBackwards (bws.map GradEvent.backward) = bws.length := by
  induction bws with
  | nil => rfl
  | cons bw bws ih => simp [countBackwards, ih]

theorem evalFold_trace (cfg : Cfg) :
    ∀ (bs : List Batch) (st : ForwardState),
      (bs.foldl (forwardBatch cfg false) st).trace = st.trace := by
  intro bs
  induction bs with
  | nil => intro st; rfl
  | cons b bs ih =>
    intro st
    rw [List.foldl_cons, ih]
    simp [forwardBatch]

theorem evalFold_recs (cfg : Cfg) :
    ∀ (bs : List Batch) (st : ForwardState),
      (bs.foldl (forwardBatch cfg false) st).recs = st.recs := by
  intro bs
  induction bs with
  | nil => intro st; rfl
  | cons b bs ih =>
    intro st
    rw [List.foldl_cons, ih]
    simp [forwardBatch]

theorem applyGradEvents_nil {P : Type} (stepF : P → P) (p : P) :
    applyGradEvents stepF p [] = p := rfl

theorem epochLoop_length : ∀ (o : Option ℚ) (vs : List ℚ),
    (epochLoop o vs).length = vs.length := by
  intro o vs
  induction vs generalizing o with
  | nil => cases o <;> rfl
  | cons v vs ih => cases o <;> simp [epochLoop, ih]

theorem epochLoop_some_succ_isBest (d : Ckpt) :
    ∀ (vs : List ℚ) (bp : ℚ) (j : Nat), j + 1 < vs.length →
      ((epochLoop (some bp) vs).getD (j + 1) d).isBest
          = decide (((epochLoop (some bp) vs).getD j d).bestPrec1 < vs.getD (j + 1) 0)
      ∧ ((epochLoop (some bp) vs).getD (j + 1) d).bestPrec1
          = max (vs.getD (j + 1) 0) (((epochLoop (some bp) vs).getD j d).bestPrec1) := by
  intro vs
  induction vs with
  | nil => intro bp j hj; simp at hj
  | cons v vs ih =>
    intro bp j hj
    cases j with
    | zero =>
      cases vs with
      | nil => simp at hj
      | cons v' vs' => simp [epochLoop]
    | succ j' =>
      have := ih (max v bp) j' (by simpa using hj)
      simpa [epochLoop] using this

theorem sorted_le_getLastD (l : List Int) (hs : l.Sorted (· ≤ ·)) (x : Int)
    (hx : x ∈ l) : x ≤ l.getLastD 0 := by
  have hne : l ≠ [] := List.ne_nil_of_mem hx
  have hlen : l.length - 1 < l.length := by
    cases l with
    | nil => simp at hne
    | cons a l => simp
  obtain ⟨i, hxi⟩ := List.mem_iff_get.mp hx
  have hlast : l.getLastD 0 = l.get ⟨l.length - 1, hlen⟩ := by
    rw [List.getLastD_eq_getLast?, List.getLast?_eq_getLast l hne]
    simp [List.getLast_eq_getElem]
  rw [hlast, ← hxi]
  exact hs.rel_get_of_le (by simp [Fin.le_def]; omega)

/-- C1: for every training batch, `trainBatch` performs exactly one optimizer
step regardless of the schedule length, and the number of backward calls
equals the length of the training schedule — the reference level (32) plus
each requested level of the sorted `bit_width_list`. -/
theorem c1_one_step_per_train_batch (cfg : Cfg) (b : Batch)
    (losses top1 top5 : List AverageMeter) (slack : List (List AverageMeter))
    (h1 : cfg.bwList.length ≤ losses.length) (h2 : cfg.bwList.length ≤ top1.length)
    (h3 : cfg.bwList.length ≤ top5.length) (h4 : cfg.bwList.length ≤ slack.length) :
    countOptSteps (trainBatch cfg b losses top1 top5 slack).trace = 1
    ∧ countBackwards (trainBatch cfg b losses top1 top5 slack).trace
        = (32 :: cfg.bwList).length := by
  rw [trainBatch_trace cfg b losses top1 top5 slack h1 h2 h3 h4]
  constructor
  · simp [countOptSteps, countOptSteps_append, countOptSteps_map_backward]
  · simp [countBackwards, countBackwards_append, countBackwards_map_backward]

/-- C1 witness: the counts at the concrete configuration with requested
schedule `4,8`. -/
theorem c1_witness :
    countOptSteps (trainBatch exCfg exBatch (initMeters 2) (initMeters 2)
        (initMeters 2) (initSlack 2 1)).trace = 1
    ∧ countBackwards (trainBatch exCfg exBatch (initMeters 2) (initMeters 2)
        (initMeters 2) (initSlack 2 1)).trace = (32 :: exCfg.bwList).length :=
  c1_one_step_per_train_batch exCfg exBatch (initMeters 2) (initMeters 2)
    (initMeters 2) (initSlack 2 1) (by norm_num [exCfg, initMeters])
    (by norm_num [exCfg, initMeters]) (by norm_num [exCfg, initMeters])
    (by norm_num [exCfg, initSlack])

/-- C2 counterexample: with requested schedule `4,8`, the soft target that
actually supervises level 4 in `trainBatch` is derived from the detached
full-precision reference output (precision 32), and it differs from the
softmax of the detached output of level 8 — the immediately higher precision
level in the schedule — so the claimed cascade direction is false. -/
theorem c2_counterexample :
    ((trainBatch exCfg exBatch (initMeters 2) (initMeters 2) (initMeters 2)
        (initSlack 2 1)).recs.getD 0 default).bw = 4
    ∧ ((trainBatch exCfg exBatch (initMeters 2) (initMeters 2) (initMeters 2)
        (initSlack 2 1)).recs.getD 0 default).target
        = exCfg.softmax (exBatch.outAt 32)
    ∧ exCfg.softmax (exBatch.outAt 32) = [3/4, 1/4]
    ∧ exCfg.softmax (exBatch.outAt 8) = [1/4, 3/4]
    ∧ ((trainBatch exCfg exBatch (initMeters 2) (initMeters 2) (initMeters 2)
        (initSlack 2 1)).recs.getD 0 default).target
        ≠ exCfg.softmax (exBatch.outAt 8) := by
  norm_num [trainBatch, trainLoop, initMeters, initSlack, updateLast, exCfg,
    exBatch, exAct, exSoftmax, exCeSoft, Batch.outAt, AverageMeter.update,
    AverageMeter.init]

/-- C2 (amended): the distillation loop runs over the schedule in ascending
order; the first (lowest) level is supervised by the softmax of the detached
reference output, and every later level `i` is supervised by the softmax of
the detached output of the immediately preceding — i.e. lower — precision
level in the schedule (not ground truth, and beyond the first step not the
original reference output). -/
theorem c2_cascade_targets (cfg : Cfg) (b : Batch)
    (losses top1 top5 : List AverageMeter) (slack : List (List AverageMeter))
    (h1 : cfg.bwList.length ≤ losses.length) (h2 : cfg.bwList.length ≤ top1.length)
    (h3 : cfg.bwList.length ≤ top5.length) (h4 : cfg.bwList.length ≤ slack.length)
    (j : Nat) (hj : j + 1 < cfg.bwList.length) :
    ((trainBatch cfg b losses top1 top5 slack).recs.getD 0 default).target
        = cfg.softmax (b.outAt 32)
    ∧ ((trainBatch cfg b losses top1 top5 slack).recs.getD (j + 1) default).target
        = cfg.softmax (b.outAt (cfg.bwList.getD j 0))
    ∧ ((trainBatch cfg b losses top1 top5 slack).recs.getD (j + 1) default).bw
        = cfg.bwList.getD (j + 1) 0 := by
  simp only [trainBatch]
  rw [trainLoop_recs_zero cfg.softmax cfg.ceSoft b default cfg.bwList _ _ _ _ _
      (by omega) (by rw [updateLast_length]; exact h1)
      (by rw [updateLast_length]; exact h2) (by rw [updateLast_length]; exact h3) h4,
    trainLoop_recs_succ cfg.softmax cfg.ceSoft b default cfg.bwList _ _ _ _ _ j hj
      (by rw [updateLast_length]; exact h1) (by rw [updateLast_length]; exact h2)
      (by rw [updateLast_length]; exact h3) h4]
  exact ⟨rfl, rfl, rfl⟩

/-- C2 witness: the amended cascade at the concrete configuration — level 8
(index 1) is supervised by the softmax of level 4's output. -/
theorem c2_witness :
    ((trainBatch exCfg exBatch (initMeters 2) (initMeters 2) (initMeters 2)
        (initSlack 2 1)).recs.getD 0 default).target
        = exCfg.softmax (exBatch.outAt 32)
    ∧ ((trainBatch exCfg exBatch (initMeters 2) (initMeters 2) (initMeters 2)
        (initSlack 2 1)).recs.getD 1 default).target
        = exCfg.softmax (exBatch.outAt (exCfg.bwList.getD 0 0))
    ∧ ((trainBatch exCfg exBatch (initMeters 2) (initMeters 2) (initMeters 2)
        (initSlack 2 1)).recs.getD 1 default).bw = exCfg.bwList.getD 1 0 :=
  c2_cascade_targets exCfg exBatch (initMeters 2) (initMeters 2) (initMeters 2)
    (initSlack 2 1) (by norm_num [exCfg, initMeters]) (by norm_num [exCfg, initMeters])
    (by norm_num [exCfg, initMeters]) (by norm_num [exCfg, initSlack]) 0
    (by norm_num [exCfg])

/-- C3 counterexample: with requested schedule `8,4` (32 absent), the list
the evaluation pass iterates over is `[4, 8]`, which does not contain 32;
the reference trace is taken at its last element 8, and at the concrete
batch the recorded slack is computed against the level-8 activations, which
differs from the value against the full-precision (32) activations. -/
theorem c3_counterexample :
    sortedBitWidths ("8,4") = some [4, 8]
    ∧ (32 : Int) ∉ ([4, 8] : List Int)
    ∧ ([4, 8] : List Int).getLastD 0 = 8
    ∧ (((freshEval exCfg exBatch).slack.getD 0 []).getD 0 default).val
        = meanSq ((exBatch.act 4).getD 0 []) ((exBatch.act 8).getD 0 [])
          - exCfg.epsilon 4 0
    ∧ (((freshEval exCfg exBatch).slack.getD 0 []).getD 0 default).val
        ≠ meanSq ((exBatch.act 4).getD 0 []) ((exBatch.act 32).getD 0 [])
          - exCfg.epsilon 4 0 := by
  refine ⟨by decide, by decide, by decide, ?_, ?_⟩
  · norm_num [freshEval, evalBatch, evalLoop, evalLoopElse, slackRow, initMeters,
      initSlack, updateAt, meanSq, exCfg, exBatch, exAct, exSoftmax, exCeSoft,
      AverageMeter.update, AverageMeter.init, List.range_succ]
  · norm_num [freshEval, evalBatch, evalLoop, evalLoopElse, slackRow, initMeters,
      initSlack, updateAt, meanSq, exCfg, exBatch, exAct, exSoftmax, exCeSoft,
      AverageMeter.update, AverageMeter.init, List.range_succ]

/-- C3 (amended): 32 is always a member of the model-construction list
`bwListExtended`, but the schedule the evaluation pass iterates over is just
the sorted requested list; the reference activation trace for slack is
produced at that list's last element, which is its maximum — equal to the
full-precision level only when 32 was requested. -/
theorem c3_eval_schedule (s : String) (L : List Int)
    (h : parseBitWidths s = some L) :
    sortedBitWidths s = some (List.insertionSort (· ≤ ·) L)
    ∧ (32 : Int) ∈ bwListExtended (List.insertionSort (· ≤ ·) L)
    ∧ (∀ x ∈ L, x ≤ (List.insertionSort (· ≤ ·) L).getLastD 0)
    ∧ ∀ (n : Nat) (eps : Int → Nat → ℚ) (sm : List ℚ → List ℚ)
        (cs : List ℚ → List ℚ → ℚ) (fl : Bool) (b : Batch) (j lyr : Nat),
        j < (List.insertionSort (· ≤ ·) L).length → lyr < n →
        (((freshEval ⟨List.insertionSort (· ≤ ·) L, n, eps, sm, cs, fl⟩ b).slack.getD
            j []).getD lyr default).val
          = meanSq ((b.act ((List.insertionSort (· ≤ ·) L).getD j 0)).getD lyr [])
              ((b.act ((List.insertionSort (· ≤ ·) L).getLastD 0)).getD lyr [])
            - eps ((List.insertionSort (· ≤ ·) L).getD j 0) lyr := by
  refine ⟨by simp [sortedBitWidths, h], ?_, ?_, ?_⟩
  · by_cases h32 : (32 : Int) ∈ List.insertionSort (· ≤ ·) L <;>
      simp [bwListExtended, h32]
  · intro x hx
    exact sorted_le_getLastD _ (List.sorted_insertionSort _ L) x (by simpa using hx)
  · intro n eps sm cs fl b j lyr hj hl
    exact (freshEval_slack ⟨List.insertionSort (· ≤ ·) L, n, eps, sm, cs, fl⟩
      b j lyr hj hl).1

/-- C3 witness: the amended statement at the concrete request `8,4`. -/
theorem c3_witness :
    sortedBitWidths ("8,4") = some (List.insertionSort (· ≤ ·) [8, 4])
    ∧ (32 : Int) ∈ bwListExtended (List.insertionSort (· ≤ ·) [8, 4])
    ∧ (∀ x ∈ ([8, 4] : List Int), x ≤ (List.insertionSort (· ≤ ·) ([8, 4] : List Int)).getLastD 0)
    ∧ ∀ (n : Nat) (eps : Int → Nat → ℚ) (sm : List ℚ → List ℚ)
        (cs : List ℚ → List ℚ → ℚ) (fl : Bool) (b : Batch) (j lyr : Nat),
        j < (List.insertionSort (· ≤ ·) ([8, 4] : List Int)).length → lyr < n →
        (((freshEval ⟨List.insertionSort (· ≤ ·) ([8, 4] : List Int), n, eps, sm, cs, fl⟩ b).slack.getD
            j []).getD lyr default).val
          = meanSq ((b.act ((List.insertionSort (· ≤ ·) ([8, 4] : List Int)).getD j 0)).getD lyr [])
              ((b.act ((List.insertionSort (· ≤ ·) ([8, 4] : List Int)).getLastD 0)).getD lyr [])
            - eps ((List.insertionSort (· ≤ ·) ([8, 4] : List Int)).getD j 0) lyr :=
  c3_eval_schedule ("8,4") [8, 4] (by decide)

/-- C4 counterexample: with requested schedule `4,8` (32 absent) the slack
recorded for level 4, layer 0 is 2/5 — computed against the level-8
reference trace — while the claimed formula against the full-precision (32)
activation gives 39/10, a different value. -/
theorem c4_counterexample :
    (((freshEval exCfg exBatch).slack.getD 0 []).getD 0 default).val = 2/5
    ∧ meanSq ((exBatch.act 4).getD 0 []) ((exBatch.act 32).getD 0 [])
        - exCfg.epsilon 4 0 = 39/10
    ∧ ((2 : ℚ)/5 ≠ 39/10) := by
  refine ⟨?_, ?_, by norm_num⟩
  · norm_num [freshEval, evalBatch, evalLoop, evalLoopElse, slackRow, initMeters,
      initSlack, updateAt, meanSq, exCfg, exBatch, exAct, exSoftmax, exCeSoft,
      AverageMeter.update, AverageMeter.init, List.range_succ]
  · norm_num [meanSq, exBatch, exAct, exCfg]

/-- C4 (amended): during an evaluation pass the slack recorded for level `p`
at layer `l` equals `mean((act_p[l] - act_r[l])^2) - epsilon[p][l]` with the
sign preserved (no clamping), where `act_r` is the activation trace taken at
the last (highest) level of the sorted requested schedule — the
full-precision level only when 32 was requested. -/
theorem c4_slack_formula (cfg : Cfg) (b : Batch) (j lyr : Nat)
    (hj : j < cfg.bwList.length) (hl : lyr < cfg.numLayers) :
    (((freshEval cfg b).slack.getD j []).getD lyr default).val
      = meanSq ((b.act (cfg.bwList.getD j 0)).getD lyr [])
          ((b.act (cfg.bwList.getLastD 0)).getD lyr [])
        - cfg.epsilon (cfg.bwList.getD j 0) lyr :=
  (freshEval_slack cfg b j lyr hj hl).1

/-- C4 witness: the amended slack formula at the concrete configuration. -/
theorem c4_witness :
    (((freshEval exCfg exBatch).slack.getD 0 []).getD 0 default).val
      = meanSq ((exBatch.act (exCfg.bwList.getD 0 0)).getD 0 [])
          ((exBatch.act (exCfg.bwList.getLastD 0)).getD 0 [])
        - exCfg.epsilon (exCfg.bwList.getD 0 0) 0 :=
  c4_slack_formula exCfg exBatch 0 0 (by norm_num [exCfg]) (by norm_num [exCfg])

/-- C5: an evaluation-only pass has no gradient side effects — it issues no
gradient-side call at all (empty trace, zero optimizer steps), so the
parameters after replaying its trace are the parameters before. -/
theorem c5_eval_no_grad_effects {P : Type} (cfg : Cfg) (bs : List Batch)
    (stepF : P → P) (p : P) :
    (forwardPass cfg false bs).trace = []
    ∧ countOptSteps (forwardPass cfg false bs).trace = 0
    ∧ applyGradEvents stepF p (forwardPass cfg false bs).trace = p := by
  unfold forwardPass
  rw [evalFold_trace cfg bs (forwardInit cfg)]
  exact ⟨rfl, rfl, rfl⟩

/-- C6 counterexample: the request `4,4` parses and sorts to `[4, 4]` —
duplicates are kept — whereas the claimed `sorted(dedup(P))` is `[4]`; in
particular the produced schedule is not strictly ascending. -/
theorem c6_counterexample :
    sortedBitWidths ("4,4") = some [4, 4]
    ∧ specTrainSchedule [4, 4] = [4]
    ∧ (([4, 4] : List Int) ≠ [4])
    ∧ ¬ (([4, 4] : List Int).Sorted (· < ·)) :=
  ⟨by decide, by decide, by decide, by decide⟩

/-- C6 (amended): building the schedule yields an ascending (non-strict,
duplicates preserved) training schedule that is a permutation of the
requested levels — `sorted(P)` without deduplication — and an extended list
equal to the training schedule with 32 appended exactly when 32 is absent,
so 32 is always a member of the extended list. -/
theorem c6_schedule_build (s : String) (L : List Int)
    (h : parseBitWidths s = some L) :
    ∃ t : List Int, sortedBitWidths s = some t
      ∧ t.Sorted (· ≤ ·)
      ∧ List.Perm t L
      ∧ ((32 : Int) ∈ t → bwListExtended t = t)
      ∧ ((32 : Int) ∉ t → bwListExtended t = t ++ [32])
      ∧ (32 : Int) ∈ bwListExtended t := by
  refine ⟨List.insertionSort (· ≤ ·) L, by simp [sortedBitWidths, h],
    List.sorted_insertionSort _ L, List.perm_insertionSort _ L, ?_, ?_, ?_⟩
  · intro h32; simp [bwListExtended, h32]
  · intro h32; simp [bwListExtended, h32]
  · by_cases h32 : (32 : Int) ∈ List.insertionSort (· ≤ ·) L <;>
      simp [bwListExtended, h32]

/-- C6 witness: the amended build at the concrete request `8,4`. -/
theorem c6_witness :
    ∃ t : List Int, sortedBitWidths ("8,4") = some t
      ∧ t.Sorted (· ≤ ·)
      ∧ List.Perm t [8, 4]
      ∧ ((32 : Int) ∈ t → bwListExtended t = t)
      ∧ ((32 : Int) ∉ t → bwListExtended t = t ++ [32])
      ∧ (32 : Int) ∈ bwListExtended t :=
  c6_schedule_build ("8,4") [8, 4] (by decide)

/-- C7 counterexample: with the slack toggle off (`exCfg.evalConstraint =
false`) the evaluation batch still computes and records slack — both the
layer slot and the output-slack slot of level 4 receive an update — so
slack recording is not conditional on the toggle. -/
theorem c7_counterexample :
    exCfg.evalConstraint = false
    ∧ (((freshEval exCfg exBatch).slack.getD 0 []).getD 0 default).updates = 1
    ∧ (((freshEval exCfg exBatch).slack.getD 0 []).getD 1 default).updates = 1 := by
  refine ⟨rfl, ?_, ?_⟩
  · norm_num [freshEval, evalBatch, evalLoop, evalLoopElse, slackRow, initMeters,
      initSlack, updateAt, meanSq, exCfg, exBatch, exAct, exSoftmax, exCeSoft,
      AverageMeter.update, AverageMeter.init, List.range_succ]
  · norm_num [freshEval, evalBatch, evalLoop, evalLoopElse, slackRow, initMeters,
      initSlack, updateAt, meanSq, exCfg, exBatch, exAct, exSoftmax, exCeSoft,
      AverageMeter.update, AverageMeter.init, List.range_succ]

/-- C7 (amended): the evaluation pass is entirely independent of the slack
toggle — flipping `evalConstraint` does not change its result — and the
per-layer slack slots and the output-slack slot are recorded (exactly one
update each per batch) regardless of the toggle; in the source the toggle
only gates the tracking-sink logging in `main` (lines 145-150). -/
theorem c7_slack_recorded_regardless (bwl : List Int) (n : Nat)
    (eps : Int → Nat → ℚ) (sm : List ℚ → List ℚ) (cs : List ℚ → List ℚ → ℚ)
    (b : Batch) (j lyr : Nat) (hj : j < bwl.length) (hl : lyr < n) :
    freshEval ⟨bwl, n, eps, sm, cs, true⟩ b = freshEval ⟨bwl, n, eps, sm, cs, false⟩ b
    ∧ (((freshEval ⟨bwl, n, eps, sm, cs, false⟩ b).slack.getD j []).getD lyr
        default).updates = 1
    ∧ (((freshEval ⟨bwl, n, eps, sm, cs, false⟩ b).slack.getD j []).getD n
        default).updates = 1 :=
  ⟨rfl, (freshEval_slack ⟨bwl, n, eps, sm, cs, false⟩ b j lyr hj hl).2.1,
   (freshEval_slack ⟨bwl, n, eps, sm, cs, false⟩ b j lyr hj hl).2.2.1⟩

/-- C7 witness: the amended statement at the concrete configuration. -/
theorem c7_witness :
    freshEval ⟨[4, 8], 1, fun _ _ => 1/10, exSoftmax, exCeSoft, true⟩ exBatch
        = freshEval ⟨[4, 8], 1, fun _ _ => 1/10, exSoftmax, exCeSoft, false⟩ exBatch
    ∧ (((freshEval ⟨[4, 8], 1, fun _ _ => 1/10, exSoftmax, exCeSoft, false⟩
        exBatch).slack.getD 0 []).getD 0 default).updates = 1
    ∧ (((freshEval ⟨[4, 8], 1, fun _ _ => 1/10, exSoftmax, exCeSoft, false⟩
        exBatch).slack.getD 0 []).getD 1 default).updates = 1 :=
  c7_slack_recorded_regardless [4, 8] 1 (fun _ _ => 1/10) exSoftmax exCeSoft
    exBatch 0 0 (by norm_num) (by norm_num)

/-- C8: every epoch persists exactly one checkpoint record; the `is_best`
flag is set on the first epoch and thereafter exactly when the latest
validation top-1 strictly exceeds the running best; on the sequence
`[70, 72.5, 71]` the flag is set on the first two epochs only and the final
best is 72.5. -/
theorem c8_best_checkpointing (v : ℚ) (vs : List ℚ) (j : Nat)
    (hj : j + 1 < (v :: vs).length) :
    (epochLoop none (v :: vs)).length = (v :: vs).length
    ∧ ((epochLoop none (v :: vs)).getD 0 default).isBest = true
    ∧ ((epochLoop none (v :: vs)).getD (j + 1) default).isBest
        = decide (((epochLoop none (v :: vs)).getD j default).bestPrec1
            < (v :: vs).getD (j + 1) 0)
    ∧ epochLoop none [70, 145/2, 71]
        = [⟨true, 70⟩, ⟨true, 145/2⟩, ⟨false, 145/2⟩] := by
  refine ⟨epochLoop_length none (v :: vs), by simp [epochLoop], ?_, ?_⟩
  · cases j with
    | zero =>
      cases vs with
      | nil => simp at hj
      | cons v' vs' => simp [epochLoop]
    | succ j' =>
      have h := epochLoop_some_succ_isBest default vs v j' (by simpa using hj)
      simpa [epochLoop] using h.1
  · norm_num [epochLoop, max_def]

/-- C8 witness: the concrete scenario extracted by applying the theorem at
the sequence `[70, 72.5, 71]`. -/
theorem c8_witness :
    epochLoop none [70, 145/2, 71]
      = [⟨true, 70⟩, ⟨true, 145/2⟩, ⟨false, 145/2⟩] :=
  (c8_best_checkpointing 70 [145/2, 71] 0 (by norm_num)).2.2.2

/-- C9: an empty requested schedule fails at startup — `int('')` raises
during schedule construction (train.py line 62), modelled as the
configuration error — so the run produces no checkpoints and no training
occurs. -/
theorem c9_empty_schedule_fails (valPrec1 : List ℚ) :
    parseBitWidths ("") = none
    ∧ mainStartup ("") = Except.error StartupError.configurationError
    ∧ mainRun ("") valPrec1 = Except.error StartupError.configurationError := by
  have h : parseBitWidths ("") = none := by decide
  exact ⟨h, by simp [mainStartup, sortedBitWidths, h],
    by simp [mainRun, mainStartup, sortedBitWidths, h]⟩

/-- C10: in the evaluation branch the `for ... else:` block always runs, so
after one evaluation batch from fresh meters every level's loss/top-1/top-5
accumulators have received exactly two updates (not one), both carrying that
level's forward output. -/
theorem c10_double_eval_updates (cfg : Cfg) (b : Batch) (j : Nat)
    (hj : j < cfg.bwList.length) :
    ((freshEval cfg b).losses.getD j default).updates = 2
    ∧ ((freshEval cfg b).top1.getD j default).updates = 2
    ∧ ((freshEval cfg b).top5.getD j default).updates = 2
    ∧ ((freshEval cfg b).losses.getD j default).val
        = b.ce (b.out (cfg.bwList.getD j 0)) := by
  have h := freshEval_getD cfg b j hj
  rw [h.1, h.2.1, h.2.2.1]
  simp [AverageMeter.update, AverageMeter.init]

/-- C10 witness: the double update at the concrete configuration. -/
theorem c10_witness :
    ((freshEval exCfg exBatch).losses.getD 0 default).updates = 2
    ∧ ((freshEval exCfg exBatch).top1.getD 0 default).updates = 2
    ∧ ((freshEval exCfg exBatch).top5.getD 0 default).updates = 2
    ∧ ((freshEval exCfg exBatch).losses.getD 0 default).val
        = exBatch.ce (exBatch.out (exCfg.bwList.getD 0 0)) :=
  c10_double_eval_updates exCfg exBatch 0 (by norm_num [exCfg])
